import Mathlib

/-!
Verification of the Ordis extraction pipeline (spy4x/ordis).

Shallow embedding of the TypeScript sources:
- `src/llm/client.ts` — completion client: error classification, retry/backoff,
  response-contract parsing (`LLMClient.chat`, `chatWithRetry`, `isRetryableError`,
  `calculateDelay`, `handleErrorResponse`, `parseExtractionResponse`);
- `src/llm/errors.ts` — `LLMError` and its codes;
- `src/llm/prompt-builder.ts` — `buildSystemPrompt`, `buildUserPrompt`;
- `src/schemas/loader.ts` — `loadSchemaFromObject` (the validator it calls is
  modelled from the spec, see below).

JavaScript strings are embedded as `String`/`List Char`; JS numbers as `ℚ`;
JSON values as the inductive `Json`; fallible code as `Except`/`Option`.
`JSON.parse` is embedded as a fuel-bounded recursive-descent parser over the
JSON grammar (objects keep textual member order; a duplicate key reads as the
last occurrence, as in JS).
-/

namespace Ordis

/-- A JSON value, the result of `JSON.parse`. Numbers are rationals
(JSON numbers are decimal literals with optional fraction/exponent). -/
inductive Json where
  | null : Json
  | bool (b : Bool) : Json
  | num (q : ℚ) : Json
  | str (s : String) : Json
  | arr (elems : List Json) : Json
  | obj (members : List (String × Json)) : Json

/-- JS property read `j[k]` on a parsed JSON value: the last binding of the key
in an object (duplicate keys in a JSON text resolve to the last), `none`
(i.e. `undefined`) otherwise. -/
def jsGet (j : Json) (k : String) : Option Json :=
  match j with
  | .obj ms => ms.foldl (fun acc p => if p.1 = k then some p.2 else acc) none
  | _ => none

/-- JS truthiness of a JSON value (`null`, `false`, `0`, `""` are falsy;
arrays and objects, even empty, are truthy). -/
def jsTruthy : Json → Bool
  | .null => false
  | .bool b => b
  | .num q => !(q = 0 : Bool)
  | .str s => !(s = "" : Bool)
  | .arr _ => true
  | .obj _ => true

/-- Whether `typeof v === 'object'` holds in JS for a parsed JSON value:
true for objects, arrays and `null`. -/
def jsTypeofObject : Json → Bool
  | .obj _ => true
  | .arr _ => true
  | .null => true
  | _ => false

/-- Whitespace characters accepted between JSON tokens (RFC 8259). -/
def isJsonWs (c : Char) : Bool :=
  c = ' ' || c = '\t' || c = '\n' || c = '\r'

/-- Skip JSON inter-token whitespace. -/
def skipWs (cs : List Char) : List Char := cs.dropWhile isJsonWs

/-- Value of a hexadecimal digit. -/
def hexVal (c : Char) : Option Nat :=
  if '0' ≤ c ∧ c ≤ '9' then some (c.toNat - '0'.toNat)
  else if 'a' ≤ c ∧ c ≤ 'f' then some (c.toNat - 'a'.toNat + 10)
  else if 'A' ≤ c ∧ c ≤ 'F' then some (c.toNat - 'A'.toNat + 10)
  else none

/-- Parse the body of a JSON string literal (after the opening quote),
accumulating decoded characters in reverse. -/
def pStringAux : List Char → List Char → Option (String × List Char)
  | acc, '"' :: rest => some (⟨acc.reverse⟩, rest)
  | acc, '\\' :: 'u' :: h1 :: h2 :: h3 :: h4 :: rest =>
    match hexVal h1, hexVal h2, hexVal h3, hexVal h4 with
    | some a, some b, some c, some d =>
      pStringAux (Char.ofNat (((a * 16 + b) * 16 + c) * 16 + d) :: acc) rest
    | _, _, _, _ => none
  | acc, '\\' :: e :: rest =>
    match e with
    | '"' => pStringAux ('"' :: acc) rest
    | '\\' => pStringAux ('\\' :: acc) rest
    | '/' => pStringAux ('/' :: acc) rest
    | 'n' => pStringAux ('\n' :: acc) rest
    | 't' => pStringAux ('\t' :: acc) rest
    | 'r' => pStringAux ('\r' :: acc) rest
    | 'b' => pStringAux ('\x08' :: acc) rest
    | 'f' => pStringAux ('\x0c' :: acc) rest
    | _ => none
  | acc, c :: rest => if c.toNat < 32 then none else pStringAux (c :: acc) rest
  | _, [] => none

/-- Decimal digit test. -/
def isDigitCh (c : Char) : Bool := '0' ≤ c && c ≤ '9'

/-- Numeric value of a digit sequence. -/
def digitsToNat (ds : List Char) : Nat :=
  ds.foldl (fun acc c => acc * 10 + (c.toNat - '0'.toNat)) 0

/-- The optional exponent part of a JSON number: `([eE][+-]?[0-9]+)?`,
returning the signed exponent (0 when absent) and the rest. -/
def parseExpPart (cs : List Char) : Option (Int × List Char) :=
  match cs with
  | e :: r =>
    if e = 'e' || e = 'E' then
      let sg := match r with
        | '+' :: rr => ((1 : Int), rr)
        | '-' :: rr => ((-1 : Int), rr)
        | _ => ((1 : Int), r)
      let ds := sg.2.takeWhile isDigitCh
      if ds.isEmpty then none
      else some (sg.1 * (digitsToNat ds : Int), sg.2.dropWhile isDigitCh)
    else some (0, cs)
  | [] => some (0, [])

/-- The rational scale `10^ex` of a signed decimal exponent. -/
def pow10 (ex : Int) : ℚ :=
  if 0 ≤ ex then (10 : ℚ) ^ ex.toNat else 1 / (10 : ℚ) ^ (-ex).toNat

/-- The signed integer of a parsed sign and magnitude. -/
def intSign (neg : Bool) (ip : Nat) : Int :=
  if neg then -(ip : Int) else (ip : Int)

/-- Apply a parsed minus sign to a rational magnitude. -/
def signedVal (neg : Bool) (m : ℚ) : ℚ := if neg then -m else m

/-- Parse a JSON number literal: `-? (0 | [1-9][0-9]*) (.[0-9]+)? ([eE][+-]?[0-9]+)?`.
A literal with no fraction and exponent 0 is built directly as an integer;
otherwise the value is mantissa times scale. -/
def pNumber (cs : List Char) : Option (Json × List Char) :=
  let st := match cs with
    | '-' :: r => (true, r)
    | _ => (false, cs)
  let neg := st.1
  let cs1 := st.2
  let intRes : Option (Nat × List Char) :=
    match cs1 with
    | '0' :: r =>
      match r with
      | c :: _ => if isDigitCh c then none else some (0, r)
      | [] => some (0, [])
    | c :: _ =>
      if isDigitCh c then
        some (digitsToNat (cs1.takeWhile isDigitCh), cs1.dropWhile isDigitCh)
      else none
    | [] => none
  match intRes with
  | none => none
  | some (ip, cs2) =>
    match cs2 with
    | '.' :: r =>
      let ds := r.takeWhile isDigitCh
      if ds.isEmpty then none
      else
        match parseExpPart (r.dropWhile isDigitCh) with
        | none => none
        | some (ex, cs4) =>
          some (.num (signedVal neg
            (((ip : ℚ) + (digitsToNat ds : ℚ) / (10 : ℚ) ^ ds.length) * pow10 ex)), cs4)
    | _ =>
      match parseExpPart cs2 with
      | none => none
      | some (ex, cs4) =>
        if ex = 0 then some (.num ((intSign neg ip : Int) : ℚ), cs4)
        else some (.num (signedVal neg ((ip : ℚ) * pow10 ex)), cs4)

mutual

/-- Parse one JSON value (fuel-bounded recursive descent). -/
def pValue : Nat → List Char → Option (Json × List Char)
  | 0, _ => none
  | fuel + 1, cs =>
    match skipWs cs with
    | 'n' :: 'u' :: 'l' :: 'l' :: rest => some (.null, rest)
    | 't' :: 'r' :: 'u' :: 'e' :: rest => some (.bool true, rest)
    | 'f' :: 'a' :: 'l' :: 's' :: 'e' :: rest => some (.bool false, rest)
    | '"' :: rest =>
      match pStringAux [] rest with
      | some (s, r) => some (.str s, r)
      | none => none
    | '[' :: rest =>
      match skipWs rest with
      | ']' :: r => some (.arr [], r)
      | r => pElems fuel r []
    | '\x7b' :: rest =>
      match skipWs rest with
      | '\x7d' :: r => some (.obj [], r)
      | r => pMembers fuel r []
    | other => pNumber other

/-- Parse the elements of a non-empty JSON array (after `[`). -/
def pElems : Nat → List Char → List Json → Option (Json × List Char)
  | 0, _, _ => none
  | fuel + 1, cs, acc =>
    match pValue fuel cs with
    | none => none
    | some (v, rest) =>
      match skipWs rest with
      | ',' :: r => pElems fuel r (v :: acc)
      | ']' :: r => some (.arr (v :: acc).reverse, r)
      | _ => none

/-- Parse the members of a non-empty JSON object (after the opening brace). -/
def pMembers : Nat → List Char → List (String × Json) → Option (Json × List Char)
  | 0, _, _ => none
  | fuel + 1, cs, acc =>
    match skipWs cs with
    | '"' :: rest =>
      match pStringAux [] rest with
      | none => none
      | some (k, r1) =>
        match skipWs r1 with
        | ':' :: r2 =>
          match pValue fuel r2 with
          | none => none
          | some (v, r3) =>
            match skipWs r3 with
            | ',' :: r4 => pMembers fuel r4 ((k, v) :: acc)
            | '\x7d' :: r4 => some (.obj ((k, v) :: acc).reverse, r4)
            | _ => none
        | _ => none
    | _ => none

end

/-- `JSON.parse` on a character list: one value, with only whitespace allowed
before and after; `none` models a thrown `SyntaxError`. -/
def jsonParseChars (cs : List Char) : Option Json :=
  match pValue (2 * cs.length + 4) cs with
  | some (v, rest) => if (skipWs rest).isEmpty then some v else none
  | none => none

/-- `JSON.parse` on a string. -/
def jsonParse (s : String) : Option Json := jsonParseChars s.data

/-! ### `src/llm/errors.ts` -/

/-- The `LLMErrorCodes` constants of `src/llm/errors.ts`. -/
inductive LLMErrorCode where
  | NETWORK_ERROR
  | API_ERROR
  | TIMEOUT
  | INVALID_RESPONSE
  | AUTHENTICATION_ERROR
  | RATE_LIMIT
deriving DecidableEq

/-- The `details` record attached to an `LLMError`. In the source it is a
`Record<string, unknown>`; the fields below are the keys the client writes
(`retryAfter` on 429, `content`/`error` on parse failures, `originalError` on
network failures). A `Retry-After` header is kept as its numeric value in
seconds (the source stores the header string and applies `Number(...)` at use;
an absent or empty header is never stored). -/
structure LLMErrorDetails where
  retryAfter : Option ℚ := none
  content : Option String := none
  errorMsg : Option String := none
  originalError : Option String := none
deriving DecidableEq

/-- The `LLMError` class of `src/llm/errors.ts`. -/
structure LLMError where
  message : String
  code : LLMErrorCode
  statusCode : Option Nat := none
  details : LLMErrorDetails := {}
deriving DecidableEq

/-! ### `src/llm/client.ts` — configuration, classification, backoff, retry -/

/-- The retry configuration held by `LLMClient` (`this.retryConfig`).
Durations are milliseconds. -/
structure RetryConfig where
  maxRetries : Nat
  initialDelay : ℚ
  maxDelay : ℚ
  backoffFactor : ℚ

/-- The constructor default when `config.retries` is absent:
`maxRetries=3, initialDelay=1000, maxDelay=10000, backoffFactor=2`. -/
def defaultRetryConfig : RetryConfig :=
  ⟨3, 1000, 10000, 2⟩

/-- `LLMClient.isRetryableError`: membership of the error code in the
`retryableCodes` list. -/
def isRetryableError (e : LLMError) : Bool :=
  [LLMErrorCode.NETWORK_ERROR, LLMErrorCode.TIMEOUT,
   LLMErrorCode.RATE_LIMIT, LLMErrorCode.API_ERROR].contains e.code

/-- `LLMClient.calculateDelay`. `rand` stands for the `Math.random()` draw of
this call (a real in `[0,1)`, embedded as ℚ). A rate-limit error carrying a
`Retry-After` value returns `min(retryAfter*1000, maxDelay)`; otherwise the
exponential delay `initialDelay * backoffFactor^attempt` plus a jitter of
`0.25 * rand` of itself, capped at `maxDelay`. -/
def calculateDelay (cfg : RetryConfig) (attempt : Nat) (e : LLMError) (rand : ℚ) : ℚ :=
  match (if e.code = LLMErrorCode.RATE_LIMIT then e.details.retryAfter else none) with
  | some ra => min (ra * 1000) cfg.maxDelay
  | none =>
    let exponentialDelay := cfg.initialDelay * cfg.backoffFactor ^ attempt
    let jitter := exponentialDelay * (1 / 4) * rand
    min (exponentialDelay + jitter) cfg.maxDelay

/-! The LLM response wire model (`src/llm/types.ts`). Fields the parser never
reads (`id`, `model`, `usage`, ...) are omitted; fields whose absence the
parser tests are `Option`. -/

/-- A chat message of the wire response; `content` is `none` when the JSON
lacked the field (JS `undefined`). -/
structure WireMessage where
  role : String := "assistant"
  content : Option String := none
deriving DecidableEq

/-- One element of `choices`. -/
structure WireChoice where
  message : Option WireMessage := none
deriving DecidableEq

/-- The body of a 2xx completion response, as far as the client reads it
(`response.choices[0].message.content`). `choices = none` models a body
without the key. -/
structure LLMResponse where
  choices : Option (List WireChoice) := none
deriving DecidableEq

/-- One run of the network layer under `LLMClient.chat`, abstracting what
`fetch` did on this attempt:
- `ok resp`: 2xx status and a JSON body (the decoded `LLMResponse`);
- `httpError status statusText retryAfter apiMessage`: a non-2xx response;
  `retryAfter` is the parsed `Retry-After` header when present and non-empty,
  `apiMessage` the `error.message` of the error body when the body was JSON;
- `abortError`: the request was aborted (the configured timeout fired);
- `otherError msg`: `fetch` rejected with a non-abort error (connection/DNS
  failure and the like). -/
inductive FetchOutcome where
  | ok (resp : LLMResponse)
  | httpError (status : Nat) (statusText : String) (retryAfter : Option ℚ)
      (apiMessage : Option String)
  | abortError
  | otherError (msg : String)

/-- `LLMClient.handleErrorResponse`: classify a non-2xx response. 401/403 →
`AUTHENTICATION_ERROR`; 429 → `RATE_LIMIT`, capturing a present `Retry-After`
header into `details`; anything else keeps `API_ERROR`. The message prefers
the error body's `error.message` when truthy. -/
def handleErrorResponse (status : Nat) (statusText : String)
    (retryAfter : Option ℚ) (apiMessage : Option String) : LLMError :=
  let defaultMsg := "API error: " ++ toString status ++ " " ++ statusText
  let msg := match apiMessage with
    | some m => if m = "" then defaultMsg else m
    | none => defaultMsg
  if status = 401 ∨ status = 403 then
    { message := msg, code := .AUTHENTICATION_ERROR, statusCode := some status }
  else if status = 429 then
    { message := msg, code := .RATE_LIMIT, statusCode := some status,
      details := { retryAfter := retryAfter } }
  else
    { message := msg, code := .API_ERROR, statusCode := some status }

/-- `LLMClient.chat` as a function of the fetch outcome: a 2xx response is
returned as parsed; a non-2xx response raises via `handleErrorResponse`; an
abort raises `TIMEOUT`; any other rejection raises `NETWORK_ERROR`.
`timeoutMs` is `this.config.timeout` (used in the timeout message). -/
def chat (timeoutMs : Nat) (outcome : FetchOutcome) : Except LLMError LLMResponse :=
  match outcome with
  | .ok resp => .ok resp
  | .httpError status statusText retryAfter apiMessage =>
    .error (handleErrorResponse status statusText retryAfter apiMessage)
  | .abortError =>
    .error { message := "Request timeout after " ++ toString timeoutMs ++ "ms",
             code := .TIMEOUT }
  | .otherError msg =>
    .error { message := "Network error: " ++ msg, code := .NETWORK_ERROR,
             details := { originalError := some msg } }

/-- The error code of a failed call, `none` on success. -/
def errCode {α : Type} : Except LLMError α → Option LLMErrorCode
  | .error e => some e.code
  | .ok _ => none

/-- The retry loop of `LLMClient.chatWithRetry`, from attempt index `n` with
`fuel = maxRetries - n` retries still allowed. `attemptOf k` is the outcome of
the `k`-th issued `chat` call. Returns the final result, the number of `chat`
calls issued, and the number of backoff sleeps taken. A success returns at
once; a non-retryable error, or a retryable one with no fuel left
(`attempt === maxRetries` in the source), is thrown without sleeping;
otherwise the loop sleeps once and moves to attempt `n+1`. -/
def chatWithRetryAux (attemptOf : Nat → Except LLMError LLMResponse) :
    Nat → Nat → Except LLMError LLMResponse × Nat × Nat
  | n, fuel =>
    match attemptOf n with
    | .ok r => (.ok r, 1, 0)
    | .error e =>
      if isRetryableError e = false then (.error e, 1, 0)
      else
        match fuel with
        | 0 => (.error e, 1, 0)
        | fuel + 1 =>
          let rest := chatWithRetryAux attemptOf (n + 1) fuel
          (rest.1, rest.2.1 + 1, rest.2.2 + 1)

/-- `LLMClient.chatWithRetry`: the loop starting at attempt 0 with
`cfg.maxRetries` retries allowed. -/
def chatWithRetry (cfg : RetryConfig)
    (attemptOf : Nat → Except LLMError LLMResponse) :
    Except LLMError LLMResponse × Nat × Nat :=
  chatWithRetryAux attemptOf 0 cfg.maxRetries

/-! ### `src/llm/client.ts` — `parseExtractionResponse` -/

/-- Whitespace as trimmed by `String.prototype.trim` and matched by the
regex class in the fence-stripping replaces (the ASCII part). -/
def isJsWs (c : Char) : Bool :=
  c = ' ' || c = '\t' || c = '\n' || c = '\r' || c = '\x0b' || c = '\x0c'

/-- `String.prototype.trim` on a character list. -/
def trimChars (cs : List Char) : List Char :=
  (cs.dropWhile isJsWs).rdropWhile isJsWs

/-- `String.prototype.trim`. -/
def jsTrim (s : String) : String := ⟨trimChars s.data⟩

/-- The characters of a bare code fence. -/
def fenceChars : List Char := ['\x60', '\x60', '\x60']

/-- The characters of a `json`-tagged code fence opener. -/
def jsonFenceChars : List Char :=
  ['\x60', '\x60', '\x60', 'j', 's', 'o', 'n']

/-- The trailing replace `.replace(/\s*\x60\x60\x60$/, '')`: when the text ends
in a fence, remove it together with the maximal whitespace run before it. -/
def stripTrailingFence (cs : List Char) : List Char :=
  let r := cs.reverse
  if fenceChars.isPrefixOf r then ((r.drop 3).dropWhile isJsWs).reverse else cs

/-- The markdown-fence stripping of `parseExtractionResponse`: a leading
`\x60\x60\x60json` strips that opener and following whitespace (then a trailing fence);
otherwise a leading bare `\x60\x60\x60` strips just those three characters and following
whitespace (a language tag other than `json` is left in place); otherwise the
text is unchanged. -/
def stripCodeFenceChars (cs : List Char) : List Char :=
  if jsonFenceChars.isPrefixOf cs then
    stripTrailingFence ((cs.drop 7).dropWhile isJsWs)
  else if fenceChars.isPrefixOf cs then
    stripTrailingFence ((cs.drop 3).dropWhile isJsWs)
  else cs

/-- Fence stripping on strings. -/
def stripCodeFence (s : String) : String := ⟨stripCodeFenceChars s.data⟩

/-- The `ExtractionResponse` contract: extracted data, overall confidence and
per-field confidences, exactly the three fields the parser returns. -/
structure ExtractionResponse where
  data : Json
  confidence : ℚ
  confidenceByField : Json

/-- Stands for the `SyntaxError` message produced by the JS engine when
`JSON.parse` throws; the client only interpolates it into its own message. -/
def jsonSyntaxErrorMessage : String := "Unexpected token in JSON"

/-- Whether a value passes the JS test
`parsed.data && typeof parsed.data === 'object'` (also used for
`confidenceByField`). -/
def contractObjOk (v : Json) : Bool := jsTruthy v && jsTypeofObject v

/-- The body of the `try` block of `parseExtractionResponse`: decode the
(already stripped) content as JSON and check the contract in source order —
`data` present, truthy and of object type; `confidence` a number;
`confidenceByField` present, truthy and of object type. The error string is
the thrown `Error`'s message. -/
def parseLLMContent (content : String) : Except String ExtractionResponse :=
  match jsonParse content with
  | none => .error jsonSyntaxErrorMessage
  | some parsed =>
    match jsGet parsed "data" with
    | none => .error "Response missing data object"
    | some d =>
      if contractObjOk d = false then .error "Response missing data object"
      else
        match jsGet parsed "confidence" with
        | some (.num q) =>
          match jsGet parsed "confidenceByField" with
          | none => .error "Response missing confidenceByField object"
          | some cbf =>
            if contractObjOk cbf = false then
              .error "Response missing confidenceByField object"
            else .ok ⟨d, q, cbf⟩
        | _ => .error "Response missing confidence score"

/-- The `LLMError` raised by the `catch` of `parseExtractionResponse`:
`INVALID_RESPONSE`, message naming the inner failure, details carrying the
decoded text and the inner message. -/
def invalidResponseError (stripped msg : String) : LLMError :=
  { message := "Failed to parse LLM response: " ++ msg,
    code := .INVALID_RESPONSE,
    details := { content := some stripped, errorMsg := some msg } }

/-- `parseExtractionResponse` from the assistant text onward: trim, strip a
code fence, decode and check; any failure is rewrapped as an
`INVALID_RESPONSE` `LLMError` whose details carry the text that was decoded
and the inner message. -/
def parseExtractionContent (content : String) : Except LLMError ExtractionResponse :=
  let stripped := stripCodeFence (jsTrim content)
  match parseLLMContent stripped with
  | .ok r => .ok r
  | .error msg => .error (invalidResponseError stripped msg)

/-- The error thrown for a missing or empty `choices` array. -/
def noChoicesError : LLMError :=
  { message := "No choices in LLM response", code := .INVALID_RESPONSE }

/-- The error thrown for a missing message or missing/empty content
(`!message || !message.content`; the empty string is falsy in JS). -/
def noContentError : LLMError :=
  { message := "No content in LLM response", code := .INVALID_RESPONSE }

/-- `LLMClient.parseExtractionResponse` on the wire response. -/
def parseExtractionResponse (r : LLMResponse) : Except LLMError ExtractionResponse :=
  match r.choices with
  | none => .error noChoicesError
  | some [] => .error noChoicesError
  | some (c :: _) =>
    match c.message with
    | none => .error noContentError
    | some m =>
      match m.content with
      | none => .error noContentError
      | some s => if s = "" then .error noContentError else parseExtractionContent s

/-! ### Schema model (`src/schemas/types.ts` as used by the prompt builder) -/

/-- A field definition: `type` plus the optional attributes the prompt builder
and validator read. `Option` models an absent (`undefined`) attribute. -/
structure FieldDefinition where
  type : String
  optional : Option Bool := none
  description : Option String := none
  enum : Option (List String) := none
  min : Option ℚ := none
  max : Option ℚ := none
  pattern : Option String := none

/-- The `confidence` policy of a schema. -/
structure ConfidencePolicy where
  threshold : ℚ
  failOnLowConfidence : Option Bool := none

/-- Schema metadata. -/
structure SchemaMetadata where
  name : Option String := none
  version : Option String := none
  description : Option String := none

/-- A validated schema: `fields` is the name→definition mapping, embedded as
an association list in object-key order (JS objects preserve insertion
order). -/
structure Schema where
  fields : List (String × FieldDefinition)
  metadata : Option SchemaMetadata := none
  confidence : Option ConfidencePolicy := none

/-! ### `src/llm/prompt-builder.ts` -/

/-- Rendering of a JS number into a template string, for the values the
sources interpolate (thresholds, `min`/`max`): integers render as their
decimal digits. -/
def renderNum (q : ℚ) : String :=
  if q.den = 1 then toString q.num else toString q

/-- One iteration of the field loop of `buildSystemPrompt`: the `\n- name: type`
line with the optional marker, description, enum choices, numeric range and
pattern appended under the same truthiness tests as the source
(an empty-string description or pattern is falsy and skipped; a present enum
array is truthy even when empty). -/
def fieldEntryText (name : String) (fd : FieldDefinition) : String :=
  "\n- " ++ name ++ ": " ++ fd.type
  ++ (if fd.optional.getD false then " (optional)" else "")
  ++ (match fd.description with
      | some d => if d = "" then "" else " - " ++ d
      | none => "")
  ++ (match fd.enum with
      | some vs => " - allowed values: " ++ String.intercalate ", " vs
      | none => "")
  ++ (if fd.min.isSome || fd.max.isSome then
        " - range: "
        ++ (match fd.min with | some m => renderNum m | none => "−∞")
        ++ " to "
        ++ (match fd.max with | some m => renderNum m | none => "∞")
      else "")
  ++ (match fd.pattern with
      | some p => if p = "" then "" else " - pattern: " ++ p
      | none => "")

/-- The fixed opening of the system prompt, up to and including `SCHEMA:`. -/
def promptHeader : String :=
  "You are a data extraction assistant. Extract structured data from the provided text according to the schema below.\n\nCRITICAL INSTRUCTIONS:\n1. Return ONLY valid JSON matching the schema\n2. Include confidence scores (0-100) for each field, even if field is null\n3. Do not include any explanation or markdown formatting\n4. For optional fields: set value to null if not found or confidence too low\n5. ALWAYS include ALL fields in confidenceByField, even if value is null\n\nSCHEMA:\n"

/-- The `CONFIDENCE REQUIREMENTS` block, added when the schema has a
`confidence` policy. -/
def confidenceSection : Option ConfidencePolicy → String
  | some c =>
    "\n\nCONFIDENCE REQUIREMENTS:\n- Minimum confidence threshold: "
    ++ renderNum c.threshold
    ++ "%\n- Provide per-field confidence scores in your response\n"
  | none => ""

/-- The `data` lines of the response-format tail: one
`"name": <extracted_value_or_null>` entry per schema field. -/
def dataFormatKeys (fields : List (String × FieldDefinition)) : List String :=
  fields.map (fun p => "\"" ++ p.1 ++ "\": <extracted_value_or_null>")

/-- The `confidenceByField` lines of the response-format tail: one
`"name": <confidence_0_to_100_or_0_if_not_found>` entry per schema field. -/
def cbfFormatKeys (fields : List (String × FieldDefinition)) : List String :=
  fields.map (fun p => "\"" ++ p.1 ++ "\": <confidence_0_to_100_or_0_if_not_found>")

/-- The `RESPONSE FORMAT` tail of the system prompt. -/
def responseFormatSection (fields : List (String × FieldDefinition)) : String :=
  "\n\nRESPONSE FORMAT:\n\x7b\n  \"data\": \x7b\n    "
  ++ String.intercalate ",\n    " (dataFormatKeys fields)
  ++ "\n  \x7d,\n  \"confidence\": <overall_confidence_0_to_100>,\n  \"confidenceByField\": \x7b\n    "
  ++ String.intercalate ",\n    " (cbfFormatKeys fields)
  ++ "\n  \x7d\n\x7d\n\nIMPORTANT: Include ALL fields in both data and confidenceByField. Use null for data and 0 for confidence if field not found or uncertain."

/-- `buildSystemPrompt`: header, one enumeration entry per field in schema
order, the confidence block when configured, and the response-format tail. -/
def buildSystemPrompt (schema : Schema) : String :=
  promptHeader
  ++ String.join (schema.fields.map (fun p => fieldEntryText p.1 p.2))
  ++ confidenceSection schema.confidence
  ++ responseFormatSection schema.fields

/-- `buildUserPrompt`: the fixed instruction prefix around the raw input. -/
def buildUserPrompt (input : String) : String :=
  "Extract data from the following text:\n\n" ++ input

/-! ### Extraction orchestrator threshold (modelled from the spec) -/

/-- Modelled from the spec: `src/core/pipeline.ts` (the extraction
orchestrator invoked by the CLI) is not under `src/`; per §4.5 the pipeline
computes `meetsThreshold = confidence ≥ schema.confidence.threshold`, with the
threshold defaulting to 0 when the schema declares no confidence policy. -/
def schemaThresholdOf (schema : Schema) : ℚ :=
  match schema.confidence with
  | some c => c.threshold
  | none => 0

/-- Modelled from the spec: the pipeline's threshold decision
`meetsThreshold = confidence ≥ threshold` (inclusive comparison). -/
def meetsThreshold (schema : Schema) (confidence : ℚ) : Bool :=
  schemaThresholdOf schema ≤ confidence

/-! ### Schema validator (modelled from the spec) and `src/schemas/loader.ts` -/

/-- The failure cases of schema validation, per spec §4.1. -/
inductive SchemaErrorKind where
  | missingFields
  | emptyFields
  | fieldMissingType (name : String)
  | emptyEnum (name : String)
  | minGreaterMax (name : String)
  | invalidPattern (name : String)
  | malformedMetadata
deriving DecidableEq

/-- A raw field definition with no `type` key. -/
def fieldLacksType (fd : Json) : Bool := (jsGet fd "type").isNone

/-- A raw field definition whose `enum` is present but empty. -/
def enumPresentEmpty (fd : Json) : Bool :=
  match jsGet fd "enum" with
  | some (.arr []) => true
  | _ => false

/-- A raw field definition with numeric `min` and `max` and `min > max`. -/
def minGreaterThanMax (fd : Json) : Bool :=
  match jsGet fd "min", jsGet fd "max" with
  | some (.num a), some (.num b) => decide (b < a)
  | _, _ => false

/-- A raw field definition whose `pattern` is a string the regex engine
rejects. -/
def patternInvalid (isValidRegex : String → Bool) (fd : Json) : Bool :=
  match jsGet fd "pattern" with
  | some (.str p) => !isValidRegex p
  | _ => false

/-- Any of the per-field rejection causes of spec §4.1. -/
def badFieldDef (isValidRegex : String → Bool) (fd : Json) : Bool :=
  fieldLacksType fd || enumPresentEmpty fd || minGreaterThanMax fd
    || patternInvalid isValidRegex fd

/-- Modelled from the spec: `src/schemas/validator.ts` (`validateSchema`) is
not under `src/`; per §4.1, a field definition is rejected when it lacks a
`type`, when an `enum` is present but empty, when `min` and `max` are both
present with `min > max`, or when a `pattern` is not a valid regular
expression (the checks in that order; `isValidRegex` abstracts the host
regular-expression engine's syntax check). -/
def validateFieldDef (isValidRegex : String → Bool) (name : String) (fd : Json) :
    Except SchemaErrorKind Unit :=
  if fieldLacksType fd then .error (.fieldMissingType name)
  else if enumPresentEmpty fd then .error (.emptyEnum name)
  else if minGreaterThanMax fd then .error (.minGreaterMax name)
  else if patternInvalid isValidRegex fd then .error (.invalidPattern name)
  else .ok ()

/-- Modelled from the spec: validate every field definition in order,
stopping at the first failure. -/
def validateFieldsList (isValidRegex : String → Bool) :
    List (String × Json) → Except SchemaErrorKind Unit
  | [] => .ok ()
  | (n, fd) :: rest =>
    validateFieldDef isValidRegex n fd >>= fun _ =>
    validateFieldsList isValidRegex rest

/-- Modelled from the spec: `metadata`, when present, must be an object whose
`name`, `version` and `description`, when present, are strings. -/
def metadataOk (raw : Json) : Bool :=
  let strOrAbsent := fun (o : Option Json) =>
    match o with
    | none => true
    | some (.str _) => true
    | some _ => false
  match jsGet raw "metadata" with
  | none => true
  | some md =>
    match md with
    | .obj _ =>
      strOrAbsent (jsGet md "name") && strOrAbsent (jsGet md "version")
        && strOrAbsent (jsGet md "description")
    | _ => false

/-- Modelled from the spec: `validate(raw) -> Schema` of §4.1 on a raw JSON
value — `fields` must be present as a non-empty object, every field
definition must pass `validateFieldDef`, and `metadata` must be well formed.
Total and side-effect-free by construction. -/
def validateSchema (isValidRegex : String → Bool) (raw : Json) :
    Except SchemaErrorKind Unit :=
  match jsGet raw "fields" with
  | some (.obj (f :: fs)) =>
    validateFieldsList isValidRegex (f :: fs) >>= fun _ =>
    if metadataOk raw then .ok () else .error .malformedMetadata
  | some (.obj []) => .error .emptyFields
  | _ => .error .missingFields

/-- `loadSchemaFromObject` of `src/schemas/loader.ts`: run validation on the
raw object and return the object itself on success. -/
def loadSchemaFromObject (isValidRegex : String → Bool) (obj : Json) :
    Except SchemaErrorKind Json :=
  validateSchema isValidRegex obj >>= fun _ => .ok obj

/-! ### Support definitions for the statements -/

/-- Whether an `Except` value is a success. -/
def isOkE {ε α : Type} : Except ε α → Bool
  | .ok _ => true
  | .error _ => false

/-- A markdown code fence around `s` with language tag `tag` (`tag = ""` is
the untagged fence). -/
def fenceWrap (tag : String) (s : String) : String :=
  "\x60\x60\x60" ++ tag ++ "\n" ++ s ++ "\n\x60\x60\x60"

/-- `fields` missing (or not a non-empty object) in a raw schema value. -/
def fieldsMissingOrEmpty (raw : Json) : Bool :=
  match jsGet raw "fields" with
  | some (.obj (_ :: _)) => false
  | _ => true

/-- The field definitions of a raw schema value, in object order. -/
def fieldsListOf (raw : Json) : List (String × Json) :=
  match jsGet raw "fields" with
  | some (.obj ms) => ms
  | _ => []

/-! ## Helper lemmas -/

/-- String append acts as append on the underlying character lists. -/
theorem data_append (a b : String) : (a ++ b).data = a.data ++ b.data := rfl

/-- Cancel a common literal prefix and suffix of string concatenations. -/
theorem append_left_right_cancel {p s a b : String}
    (h : p ++ a ++ s = p ++ b ++ s) : a = b := by
  have h1 : p.data ++ a.data ++ s.data = p.data ++ b.data ++ s.data := by
    simpa [data_append] using congrArg String.data h
  have h2 : a.data ++ s.data = b.data ++ s.data :=
    List.append_cancel_left
      (show p.data ++ (a.data ++ s.data) = p.data ++ (b.data ++ s.data) by
        simpa [List.append_assoc] using h1)
  exact String.ext (List.append_cancel_right h2)

/-! ## Claims -/

/-- C8: `buildSystemPrompt` and `buildUserPrompt` are deterministic pure
functions — they are embedded as plain functions of their arguments (the
sources read no clock, randomness or mutable state), so equal inputs give
byte-identical outputs. -/
theorem c8_prompt_builders_deterministic :
    (∀ s₁ s₂ : Schema, s₁ = s₂ → buildSystemPrompt s₁ = buildSystemPrompt s₂) ∧
    (∀ i₁ i₂ : String, i₁ = i₂ → buildUserPrompt i₁ = buildUserPrompt i₂) :=
  ⟨fun _ _ h => congrArg buildSystemPrompt h,
   fun _ _ h => congrArg buildUserPrompt h⟩

/-- Witness for C8 at a concrete schema and input. -/
theorem c8_prompt_builders_deterministic_witness :
    buildSystemPrompt { fields := [("name", { type := "string" })] }
      = buildSystemPrompt { fields := [("name", { type := "string" })] } ∧
    buildUserPrompt "My name is John" = buildUserPrompt "My name is John" :=
  ⟨c8_prompt_builders_deterministic.1 _ _ rfl,
   c8_prompt_builders_deterministic.2 _ _ rfl⟩

/-- C6: `meetsThreshold` is the inclusive comparison
`confidence ≥ schema.confidence.threshold`; at an exact threshold of 80 a
confidence of 80 meets it, and with no declared policy the threshold defaults
to 0, so any (non-negative) confidence meets it. -/
theorem c6_meets_threshold :
    (∀ (schema : Schema) (conf : ℚ),
        meetsThreshold schema conf = true ↔ schemaThresholdOf schema ≤ conf) ∧
    (∀ (schema : Schema) (c : ConfidencePolicy),
        schema.confidence = some c → c.threshold = 80 →
        meetsThreshold schema 80 = true) ∧
    (∀ (schema : Schema) (conf : ℚ),
        schema.confidence = none → 0 ≤ conf →
        meetsThreshold schema conf = true) := by
  refine ⟨fun schema conf => ?_, fun schema c hc ht => ?_, fun schema conf hc h0 => ?_⟩
  · simp [meetsThreshold]
  · simp [meetsThreshold, schemaThresholdOf, hc, ht]
  · simp [meetsThreshold, schemaThresholdOf, hc, h0]

/-- Witness for C6 at the spec's boundary example (threshold 80,
confidence 80) and at a schema with no policy. -/
theorem c6_meets_threshold_witness :
    meetsThreshold
        { fields := [("name", { type := "string" })],
          confidence := some { threshold := 80 } } 80 = true ∧
    meetsThreshold { fields := [("name", { type := "string" })] } 50 = true :=
  ⟨c6_meets_threshold.2.1 _ { threshold := 80 } rfl rfl,
   c6_meets_threshold.2.2 _ 50 rfl (by norm_num)⟩

/-- C2: for `rand ∈ [0,1)` the computed delay is
`min(maxDelay, initialDelay * backoffFactor^attempt * (1 + j))` for the jitter
`j = rand/4 ∈ [0, 1/4)`, except that a `RATE_LIMIT` error carrying a
`Retry-After` of `ra` seconds yields `min(ra * 1000, maxDelay)`; in every case
the delay is at most `maxDelay`. -/
theorem c2_backoff_delay :
    ∀ (cfg : RetryConfig) (attempt : Nat) (e : LLMError) (rand : ℚ),
      0 ≤ rand → rand < 1 →
      (∀ ra : ℚ, e.code = .RATE_LIMIT → e.details.retryAfter = some ra →
          calculateDelay cfg attempt e rand = min (ra * 1000) cfg.maxDelay) ∧
      ((e.code ≠ .RATE_LIMIT ∨ e.details.retryAfter = none) →
          ∃ j : ℚ, 0 ≤ j ∧ j < 1 / 4 ∧
            calculateDelay cfg attempt e rand
              = min cfg.maxDelay
                  (cfg.initialDelay * cfg.backoffFactor ^ attempt * (1 + j))) ∧
      calculateDelay cfg attempt e rand ≤ cfg.maxDelay := by
  intro cfg attempt e rand h0 h1
  refine ⟨fun ra hc hra => ?_, fun hnot => ?_, ?_⟩
  · simp [calculateDelay, hc, hra]
  · have hnone : (if e.code = LLMErrorCode.RATE_LIMIT then e.details.retryAfter else none)
        = none := by
      rcases hnot with hne | hra
      · simp [hne]
      · by_cases hc : e.code = LLMErrorCode.RATE_LIMIT <;> simp [hc, hra]
    refine ⟨rand / 4, by positivity, by linarith, ?_⟩
    simp only [calculateDelay, hnone]
    rw [min_comm]
    ring_nf
  · by_cases hc : e.code = LLMErrorCode.RATE_LIMIT
    · cases hra : e.details.retryAfter with
      | none => simp only [calculateDelay, hc, hra, if_pos]; exact min_le_right _ _
      | some ra => simp only [calculateDelay, hc, hra, if_pos]; exact min_le_right _ _
    · simp only [calculateDelay, hc, if_neg]
      exact min_le_right _ _

/-- Witness for C2: a rate-limit error with `Retry-After: 2` at the default
configuration, and the cap. -/
theorem c2_backoff_delay_witness :
    calculateDelay defaultRetryConfig 0
        { message := "Rate limit exceeded", code := .RATE_LIMIT,
          statusCode := some 429, details := { retryAfter := some 2 } } 0
      = min (2 * 1000) defaultRetryConfig.maxDelay ∧
    calculateDelay defaultRetryConfig 0
        { message := "Rate limit exceeded", code := .RATE_LIMIT,
          statusCode := some 429, details := { retryAfter := some 2 } } 0
      ≤ defaultRetryConfig.maxDelay :=
  ⟨(c2_backoff_delay defaultRetryConfig 0 _ 0 (by norm_num) (by norm_num)).1
      2 rfl rfl,
   (c2_backoff_delay defaultRetryConfig 0 _ 0 (by norm_num) (by norm_num)).2.2⟩

/-- C10: a first choice whose message content is the empty string is rejected
as "no content" (the empty string is falsy under `!message.content`), exactly
like an absent content field, and the result is never the JSON-syntax parse
failure — empty content does not reach the decoder. -/
theorem c10_empty_content :
    ∀ (role : String) (rest : List WireChoice),
      parseExtractionResponse
          { choices := some ({ message := some { role := role, content := some "" } } :: rest) }
        = .error noContentError ∧
      parseExtractionResponse
          { choices := some ({ message := some { role := role, content := some "" } } :: rest) }
        = parseExtractionResponse
            { choices := some ({ message := some { role := role, content := none } } :: rest) } ∧
      ∀ stripped : String,
        parseExtractionResponse
            { choices := some ({ message := some { role := role, content := some "" } } :: rest) }
          ≠ .error (invalidResponseError stripped jsonSyntaxErrorMessage) := by
  intro role rest
  refine ⟨rfl, rfl, fun stripped h => ?_⟩
  have hmsg : noContentError = invalidResponseError stripped jsonSyntaxErrorMessage := by
    simpa [parseExtractionResponse] using h
  have hm := congrArg LLMError.message hmsg
  simp only [noContentError, invalidResponseError] at hm
  exact absurd hm (by decide)

/-- Witness for C10 at a concrete single-choice response. -/
theorem c10_empty_content_witness :
    parseExtractionResponse
        { choices := some [{ message := some { role := "assistant", content := some "" } }] }
      = .error noContentError ∧
    parseExtractionResponse
        { choices := some [{ message := some { role := "assistant", content := some "" } }] }
      ≠ .error (invalidResponseError "" jsonSyntaxErrorMessage) :=
  ⟨(c10_empty_content "assistant" []).1,
   (c10_empty_content "assistant" []).2.2 ""⟩

/-- C1: error classification of a chat attempt — fetch rejection →
`NETWORK_ERROR`; abort → `TIMEOUT`; HTTP 401/403 → `AUTHENTICATION_ERROR`;
HTTP 429 → `RATE_LIMIT`; any other non-2xx → `API_ERROR`; every failure of
the response parser (malformed JSON content, missing/empty `choices`, missing
content) → `INVALID_RESPONSE`; and the retried codes are exactly
`{NETWORK_ERROR, TIMEOUT, RATE_LIMIT, API_ERROR}`. -/
theorem c1_error_classification :
    (∀ (t : Nat) (msg : String),
        errCode (chat t (.otherError msg)) = some .NETWORK_ERROR) ∧
    (∀ t : Nat, errCode (chat t .abortError) = some .TIMEOUT) ∧
    (∀ (t s : Nat) (st : String) (ra : Option ℚ) (am : Option String),
        s = 401 ∨ s = 403 →
        errCode (chat t (.httpError s st ra am)) = some .AUTHENTICATION_ERROR) ∧
    (∀ (t : Nat) (st : String) (ra : Option ℚ) (am : Option String),
        errCode (chat t (.httpError 429 st ra am)) = some .RATE_LIMIT) ∧
    (∀ (t s : Nat) (st : String) (ra : Option ℚ) (am : Option String),
        s ≠ 401 → s ≠ 403 → s ≠ 429 →
        errCode (chat t (.httpError s st ra am)) = some .API_ERROR) ∧
    (∀ (r : LLMResponse) (e : LLMError),
        parseExtractionResponse r = .error e → e.code = .INVALID_RESPONSE) ∧
    (∀ e : LLMError,
        isRetryableError e = true ↔
          (e.code = .NETWORK_ERROR ∨ e.code = .TIMEOUT ∨ e.code = .RATE_LIMIT ∨
            e.code = .API_ERROR)) := by
  refine ⟨fun t msg => rfl, fun t => rfl, ?_, ?_, ?_, ?_, ?_⟩
  · intro t s st ra am hs
    simp [chat, handleErrorResponse, errCode, if_pos hs]
  · intro t st ra am
    simp [chat, handleErrorResponse, errCode]
  · intro t s st ra am h1 h3 h9
    have hnot : ¬(s = 401 ∨ s = 403) := by tauto
    simp [chat, handleErrorResponse, errCode, hnot, h9]
  · intro r e h
    rcases r with ⟨choices⟩
    cases choices with
    | none =>
      simp only [parseExtractionResponse] at h
      cases h
      rfl
    | some l =>
      cases l with
      | nil =>
        simp only [parseExtractionResponse] at h
        cases h
        rfl
      | cons c rest =>
        rcases c with ⟨msg⟩
        cases msg with
        | none =>
          simp only [parseExtractionResponse] at h
          cases h
          rfl
        | some m =>
          rcases m with ⟨mrole, mcontent⟩
          cases mcontent with
          | none =>
            simp only [parseExtractionResponse] at h
            cases h
            rfl
          | some s =>
            by_cases hs : s = ""
            · simp only [parseExtractionResponse, hs, if_pos] at h
              cases h
              rfl
            · simp only [parseExtractionResponse, if_neg hs] at h
              rw [parseExtractionContent] at h
              cases hp : parseLLMContent (stripCodeFence (jsTrim s)) with
              | ok v => rw [hp] at h; cases h
              | error m2 =>
                rw [hp] at h
                cases h
                rfl
  · intro e
    rcases e with ⟨msg, code, st, d⟩
    cases code <;> simp [isRetryableError]

/-- Witness for C1: a 401 classifies as `AUTHENTICATION_ERROR`, a 500 as
`API_ERROR`, and a missing `choices` array yields `INVALID_RESPONSE`. -/
theorem c1_error_classification_witness :
    errCode (chat 120000 (.httpError 401 "Unauthorized" none (some "Invalid API key")))
      = some .AUTHENTICATION_ERROR ∧
    errCode (chat 120000 (.httpError 500 "Server Error" none none))
      = some .API_ERROR ∧
    noChoicesError.code = .INVALID_RESPONSE :=
  ⟨c1_error_classification.2.2.1 120000 401 "Unauthorized" none (some "Invalid API key")
      (Or.inl rfl),
   c1_error_classification.2.2.2.2.1 120000 500 "Server Error" none none
      (by decide) (by decide) (by decide),
   c1_error_classification.2.2.2.2.2.1 { choices := none } noChoicesError rfl⟩

/-- The retry loop issues at most `fuel + 1` chat calls from any start
attempt. -/
theorem chatWithRetryAux_attempts_le
    (attemptOf : Nat → Except LLMError LLMResponse) :
    ∀ (fuel n : Nat), (chatWithRetryAux attemptOf n fuel).2.1 ≤ fuel + 1 := by
  intro fuel
  induction fuel with
  | zero =>
    intro n
    rw [chatWithRetryAux]
    cases attemptOf n with
    | ok r => simp
    | error e => cases hr : isRetryableError e <;> simp [hr]
  | succ fuel ih =>
    intro n
    rw [chatWithRetryAux]
    cases attemptOf n with
    | ok r => simp
    | error e =>
      cases hr : isRetryableError e with
      | false => simp [hr]
      | true =>
        have h2 := ih (n + 1)
        simp [hr]
        omega

/-- C3: per-call retry state machine — at most `maxRetries + 1` chat calls
are issued; a success at attempt `n` ends the call with that result, one call
and no sleep; a retryable failure with fuel left takes exactly one backoff
sleep and continues at attempt `n+1`; a non-retryable failure (e.g. a 401) or
a retryable failure with no fuel left (`n = maxRetries`) ends the call at
once with that error. -/
theorem c3_retry_state_machine :
    ∀ (cfg : RetryConfig) (attemptOf : Nat → Except LLMError LLMResponse),
      ((chatWithRetry cfg attemptOf).2.1 ≤ cfg.maxRetries + 1) ∧
      (∀ (n fuel : Nat) (r : LLMResponse), attemptOf n = .ok r →
          chatWithRetryAux attemptOf n fuel = (.ok r, 1, 0)) ∧
      (∀ (n fuel : Nat) (e : LLMError), attemptOf n = .error e →
          isRetryableError e = true →
          chatWithRetryAux attemptOf n (fuel + 1)
            = ((chatWithRetryAux attemptOf (n + 1) fuel).1,
               (chatWithRetryAux attemptOf (n + 1) fuel).2.1 + 1,
               (chatWithRetryAux attemptOf (n + 1) fuel).2.2 + 1)) ∧
      (∀ (n fuel : Nat) (e : LLMError), attemptOf n = .error e →
          (isRetryableError e = false ∨ fuel = 0) →
          chatWithRetryAux attemptOf n fuel = (.error e, 1, 0)) := by
  intro cfg attemptOf
  refine ⟨chatWithRetryAux_attempts_le attemptOf cfg.maxRetries 0,
    fun n fuel r h => ?_, fun n fuel e h hr => ?_, fun n fuel e h hdone => ?_⟩
  · rw [chatWithRetryAux, h]
  · rw [chatWithRetryAux, h]
    simp [hr]
  · rcases hdone with hr | hf
    · rw [chatWithRetryAux, h]
      simp [hr]
    · subst hf
      rw [chatWithRetryAux, h]
      cases hr : isRetryableError e <;> simp [hr]

/-- Witness for C3: a non-retryable 401 error on the first attempt ends the
call with one chat call and no sleeps, and the default-configuration loop
never issues more than 4 calls. -/
theorem c3_retry_state_machine_witness :
    chatWithRetryAux
        (fun _ => .error { message := "Invalid API key",
                           code := .AUTHENTICATION_ERROR, statusCode := some 401 })
        0 3
      = (.error { message := "Invalid API key",
                  code := .AUTHENTICATION_ERROR, statusCode := some 401 }, 1, 0) ∧
    (chatWithRetry defaultRetryConfig (fun _ => .ok { choices := none })).2.1
      ≤ defaultRetryConfig.maxRetries + 1 :=
  ⟨(c3_retry_state_machine defaultRetryConfig
        (fun _ => .error { message := "Invalid API key",
                           code := .AUTHENTICATION_ERROR, statusCode := some 401 })).2.2.2
      0 3 _ rfl (Or.inl (by decide)),
   (c3_retry_state_machine defaultRetryConfig (fun _ => .ok { choices := none })).1⟩

/-- Wrapping a field name into a `data`-section or `confidenceByField`-section
key line is injective. -/
theorem quoted_key_injective (suffix : String) :
    Function.Injective (fun n : String => "\"" ++ n ++ suffix) := by
  intro a b h
  exact append_left_right_cancel h

/-- C7: the system prompt is the header, exactly one enumeration entry per
schema field (in schema order), the confidence block, and the response-format
tail; with distinct field names, each name generates exactly one enumeration
entry and appears exactly once among the `data` keys and exactly once among
the `confidenceByField` keys of the tail — twice in total. -/
theorem c7_prompt_field_enumeration :
    ∀ (schema : Schema),
      (schema.fields.map Prod.fst).Nodup →
      ∀ n : String, n ∈ schema.fields.map Prod.fst →
        buildSystemPrompt schema
          = promptHeader
            ++ String.join (schema.fields.map (fun p => fieldEntryText p.1 p.2))
            ++ confidenceSection schema.confidence
            ++ responseFormatSection schema.fields ∧
        (schema.fields.map Prod.fst).count n = 1 ∧
        (dataFormatKeys schema.fields).count
            ("\"" ++ n ++ "\": <extracted_value_or_null>") = 1 ∧
        (cbfFormatKeys schema.fields).count
            ("\"" ++ n ++ "\": <confidence_0_to_100_or_0_if_not_found>") = 1 := by
  intro schema hnd n hn
  have hcount : (schema.fields.map Prod.fst).count n = 1 :=
    List.count_eq_one_of_mem hnd hn
  refine ⟨rfl, hcount, ?_, ?_⟩
  · have hmap : dataFormatKeys schema.fields
        = (schema.fields.map Prod.fst).map
            (fun n => "\"" ++ n ++ "\": <extracted_value_or_null>") := by
      simp [dataFormatKeys, List.map_map, Function.comp]
    rw [hmap,
      List.count_map_of_injective _ _
        (quoted_key_injective "\": <extracted_value_or_null>") n, hcount]
  · have hmap : cbfFormatKeys schema.fields
        = (schema.fields.map Prod.fst).map
            (fun n => "\"" ++ n ++ "\": <confidence_0_to_100_or_0_if_not_found>") := by
      simp [cbfFormatKeys, List.map_map, Function.comp]
    rw [hmap,
      List.count_map_of_injective _ _
        (quoted_key_injective "\": <confidence_0_to_100_or_0_if_not_found>") n, hcount]

/-- Witness for C7 at a two-field schema. -/
theorem c7_prompt_field_enumeration_witness :
    (dataFormatKeys [("name", { type := "string" }), ("age", { type := "number" })]).count
        ("\"" ++ "name" ++ "\": <extracted_value_or_null>") = 1 ∧
    (cbfFormatKeys [("name", { type := "string" }), ("age", { type := "number" })]).count
        ("\"" ++ "name" ++ "\": <confidence_0_to_100_or_0_if_not_found>") = 1 :=
  ⟨(c7_prompt_field_enumeration
      { fields := [("name", { type := "string" }), ("age", { type := "number" })] }
      (by decide) "name" (by decide)).2.2.1,
   (c7_prompt_field_enumeration
      { fields := [("name", { type := "string" }), ("age", { type := "number" })] }
      (by decide) "name" (by decide)).2.2.2⟩

/-- C4: the response parser trims the assistant text, strips a surrounding
code fence, and JSON-decodes the result; a decode failure raises
`INVALID_RESPONSE` with the decoded text in the details; a decoded value
without a `data` object, a numeric `confidence`, or a `confidenceByField`
object raises `INVALID_RESPONSE` naming the missing part; otherwise the
parser returns exactly `data`, `confidence` and `confidenceByField` from the
decoded value. -/
theorem c4_parse_contract :
    ∀ content : String,
      (jsonParse (stripCodeFence (jsTrim content)) = none →
          parseExtractionContent content
            = .error (invalidResponseError (stripCodeFence (jsTrim content))
                jsonSyntaxErrorMessage)) ∧
      (∀ p : Json, jsonParse (stripCodeFence (jsTrim content)) = some p →
          ((jsGet p "data" = none ∨
              (∃ d, jsGet p "data" = some d ∧ contractObjOk d = false)) →
              parseExtractionContent content
                = .error (invalidResponseError (stripCodeFence (jsTrim content))
                    "Response missing data object")) ∧
          (∀ d : Json, jsGet p "data" = some d → contractObjOk d = true →
              (∀ q : ℚ, jsGet p "confidence" ≠ some (.num q)) →
              parseExtractionContent content
                = .error (invalidResponseError (stripCodeFence (jsTrim content))
                    "Response missing confidence score")) ∧
          (∀ (d : Json) (q : ℚ), jsGet p "data" = some d → contractObjOk d = true →
              jsGet p "confidence" = some (.num q) →
              (jsGet p "confidenceByField" = none ∨
                (∃ cbf, jsGet p "confidenceByField" = some cbf ∧
                  contractObjOk cbf = false)) →
              parseExtractionContent content
                = .error (invalidResponseError (stripCodeFence (jsTrim content))
                    "Response missing confidenceByField object")) ∧
          (∀ (d : Json) (q : ℚ) (cbf : Json),
              jsGet p "data" = some d → contractObjOk d = true →
              jsGet p "confidence" = some (.num q) →
              jsGet p "confidenceByField" = some cbf → contractObjOk cbf = true →
              parseExtractionContent content = .ok ⟨d, q, cbf⟩)) := by
  intro content
  refine ⟨fun hnone => ?_, fun p hp => ⟨fun hdata => ?_, fun d hd hdok hconf => ?_,
    fun d q hd hdok hq hcbf => ?_, fun d q cbf hd hdok hq hc hcok => ?_⟩⟩
  · simp [parseExtractionContent, parseLLMContent, hnone]
  · rcases hdata with hnone | ⟨d, hd, hdbad⟩
    · simp [parseExtractionContent, parseLLMContent, hp, hnone]
    · simp [parseExtractionContent, parseLLMContent, hp, hd, hdbad]
  · cases hc : jsGet p "confidence" with
    | none => simp [parseExtractionContent, parseLLMContent, hp, hd, hdok, hc]
    | some v =>
      cases v with
      | num q => exact absurd hc (hconf q)
      | null => simp [parseExtractionContent, parseLLMContent, hp, hd, hdok, hc]
      | bool b => simp [parseExtractionContent, parseLLMContent, hp, hd, hdok, hc]
      | str s => simp [parseExtractionContent, parseLLMContent, hp, hd, hdok, hc]
      | arr a => simp [parseExtractionContent, parseLLMContent, hp, hd, hdok, hc]
      | obj o => simp [parseExtractionContent, parseLLMContent, hp, hd, hdok, hc]
  · rcases hcbf with hnone | ⟨cbf, hc, hcbad⟩
    · simp [parseExtractionContent, parseLLMContent, hp, hd, hdok, hq, hnone]
    · simp [parseExtractionContent, parseLLMContent, hp, hd, hdok, hq, hc, hcbad]
  · simp [parseExtractionContent, parseLLMContent, hp, hd, hdok, hq, hc, hcok]

/-- Witness for C4: garbage text yields the decode-failure error carrying the
text; a well-formed contract parses to its three components. -/
theorem c4_parse_contract_witness :
    parseExtractionContent "This is not JSON"
      = .error (invalidResponseError "This is not JSON" jsonSyntaxErrorMessage) ∧
    parseExtractionContent
        "\x7b\"data\":\x7b\"name\":\"Alice\"\x7d,\"confidence\":90,\"confidenceByField\":\x7b\"name\":90\x7d\x7d"
      = .ok ⟨.obj [("name", .str "Alice")], 90, .obj [("name", .num 90)]⟩ :=
  ⟨by
    have h := (c4_parse_contract "This is not JSON").1 rfl
    simpa using h,
   by
    have h := (c4_parse_contract
        "\x7b\"data\":\x7b\"name\":\"Alice\"\x7d,\"confidence\":90,\"confidenceByField\":\x7b\"name\":90\x7d\x7d").2
        (.obj [("data", .obj [("name", .str "Alice")]), ("confidence", .num 90),
               ("confidenceByField", .obj [("name", .num 90)])])
        rfl
    exact h.2.2.2 (.obj [("name", .str "Alice")]) 90 (.obj [("name", .num 90)])
      rfl rfl rfl rfl rfl⟩

/-- Trimming fixes a list that starts and ends with a non-whitespace
character. -/
theorem trimChars_cons_append_singleton (a b : Char) (l : List Char)
    (ha : isJsWs a = false) (hb : isJsWs b = false) :
    trimChars (a :: (l ++ [b])) = a :: (l ++ [b]) := by
  unfold trimChars
  rw [List.dropWhile_cons_of_neg (by simp [ha])]
  rw [show a :: (l ++ [b]) = (a :: l) ++ [b] by simp]
  rw [List.rdropWhile_concat_neg _ _ _ (by simp [hb])]

/-- A fence-wrapped text starts and ends with a backtick, so trimming leaves
it unchanged. -/
theorem trimChars_fenceWrap (tag s : String) :
    trimChars (fenceWrap tag s).data = (fenceWrap tag s).data := by
  have hshape : (fenceWrap tag s).data
      = '\x60' :: (('\x60' :: '\x60' :: (tag.data ++ '\n' :: (s.data ++ ['\n', '\x60', '\x60'])))
          ++ ['\x60']) := by
    simp [fenceWrap, data_append]
  rw [hshape]
  exact trimChars_cons_append_singleton _ _ _ (by decide) (by decide)

/-- The trailing-fence replace after a text ending in `\n` plus a fence:
it removes the fence and the whitespace run before it. -/
theorem stripTrailingFence_concat (A : List Char) :
    stripTrailingFence (A ++ ['\n', '\x60', '\x60', '\x60']) = A.rdropWhile isJsWs := by
  have h1 : (A ++ ['\n', '\x60', '\x60', '\x60']).reverse
      = '\x60' :: '\x60' :: '\x60' :: '\n' :: A.reverse := by
    simp
  simp only [stripTrailingFence]
  rw [h1]
  rfl

/-- Stripping the trailing fence from the whitespace-dropped
`s ++ "\n\x60\x60\x60"` yields exactly the trimmed `s`. -/
theorem stripTrailingFence_dropWhile_concat (s : String) :
    stripTrailingFence ((s.data ++ ['\n', '\x60', '\x60', '\x60']).dropWhile isJsWs)
      = trimChars s.data := by
  rw [List.dropWhile_append]
  split
  · rename_i hempty
    have h0 : s.data.dropWhile isJsWs = [] := List.isEmpty_iff.mp hempty
    simp only [trimChars]
    rw [h0]
    decide
  · rw [stripTrailingFence_concat]
    rfl

/-- Fence stripping on a `json`-tagged fence wrap recovers the trimmed
body. -/
theorem stripCodeFenceChars_fenceWrap_json (s : String) :
    stripCodeFenceChars (fenceWrap "json" s).data = trimChars s.data := by
  have hshape : (fenceWrap "json" s).data
      = jsonFenceChars ++ ('\n' :: (s.data ++ ['\n', '\x60', '\x60', '\x60'])) := by
    simp [fenceWrap, data_append, jsonFenceChars]
  rw [hshape]
  show stripTrailingFence ((s.data ++ ['\n', '\x60', '\x60', '\x60']).dropWhile isJsWs)
    = trimChars s.data
  exact stripTrailingFence_dropWhile_concat s

/-- Fence stripping on an untagged fence wrap recovers the trimmed body. -/
theorem stripCodeFenceChars_fenceWrap_untagged (s : String) :
    stripCodeFenceChars (fenceWrap "" s).data = trimChars s.data := by
  have hshape : (fenceWrap "" s).data
      = '\x60' :: '\x60' :: '\x60' :: ('\n' :: (s.data ++ ['\n', '\x60', '\x60', '\x60'])) := by
    simp [fenceWrap, data_append]
  rw [hshape]
  show stripTrailingFence ((s.data ++ ['\n', '\x60', '\x60', '\x60']).dropWhile isJsWs)
    = trimChars s.data
  exact stripTrailingFence_dropWhile_concat s

/-- Fence stripping is the identity on a text that does not start with a
fence. -/
theorem stripCodeFenceChars_eq_self {cs : List Char}
    (h : fenceChars.isPrefixOf cs = false) :
    stripCodeFenceChars cs = cs := by
  have hjson : jsonFenceChars.isPrefixOf cs = false := by
    cases hj : jsonFenceChars.isPrefixOf cs
    · rfl
    · exfalso
      have hp : jsonFenceChars <+: cs := List.isPrefixOf_iff_prefix.mp hj
      have hf : fenceChars <+: cs := List.IsPrefix.trans (by decide) hp
      exact absurd (List.isPrefixOf_iff_prefix.mpr hf) (by simp [h])
  simp [stripCodeFenceChars, hjson, h]

/-- C5 (amended): for a body whose trimmed form does not itself start with a
code fence, wrapping it in a `json`-tagged or untagged markdown fence parses
to exactly the same result (value or error) as the unfenced body. (A fence
with any other language tag is stripped of its backticks only — the tag text
is left prepended to the body, so such a wrap is not equivalent; see the
counterexample.) -/
theorem c5_fence_parse_equiv :
    ∀ s : String, fenceChars.isPrefixOf (trimChars s.data) = false →
      parseExtractionContent (fenceWrap "json" s) = parseExtractionContent s ∧
      parseExtractionContent (fenceWrap "" s) = parseExtractionContent s := by
  intro s hs
  have key : ∀ c₁ c₂ : String,
      stripCodeFence (jsTrim c₁) = stripCodeFence (jsTrim c₂) →
      parseExtractionContent c₁ = parseExtractionContent c₂ := by
    intro c₁ c₂ h
    simp only [parseExtractionContent]
    rw [h]
  have hself : stripCodeFence (jsTrim s) = ⟨trimChars s.data⟩ :=
    congrArg String.mk (stripCodeFenceChars_eq_self hs)
  constructor
  · refine key _ _ ?_
    rw [hself]
    show String.mk (stripCodeFenceChars (trimChars (fenceWrap "json" s).data))
      = String.mk (trimChars s.data)
    rw [trimChars_fenceWrap, stripCodeFenceChars_fenceWrap_json]
  · refine key _ _ ?_
    rw [hself]
    show String.mk (stripCodeFenceChars (trimChars (fenceWrap "" s).data))
      = String.mk (trimChars s.data)
    rw [trimChars_fenceWrap, stripCodeFenceChars_fenceWrap_untagged]

/-- Witness for the amended C5 at the contract body of the spec's example. -/
theorem c5_fence_parse_equiv_witness :
    parseExtractionContent
        (fenceWrap "json" "\x7b\"data\":\x7b\x7d,\"confidence\":5,\"confidenceByField\":\x7b\x7d\x7d")
      = parseExtractionContent
          "\x7b\"data\":\x7b\x7d,\"confidence\":5,\"confidenceByField\":\x7b\x7d\x7d" ∧
    parseExtractionContent
        (fenceWrap "" "\x7b\"data\":\x7b\x7d,\"confidence\":5,\"confidenceByField\":\x7b\x7d\x7d")
      = parseExtractionContent
          "\x7b\"data\":\x7b\x7d,\"confidence\":5,\"confidenceByField\":\x7b\x7d\x7d" :=
  c5_fence_parse_equiv
    "\x7b\"data\":\x7b\x7d,\"confidence\":5,\"confidenceByField\":\x7b\x7d\x7d" (by decide)

/-- Counterexample to C5 as stated: with the language tag `ts`, the fenced
contract text parses differently from the unfenced text (the tag is not
stripped, so decoding fails on the fenced form while the unfenced form
succeeds). -/
theorem c5_counterexample :
    parseExtractionContent
        (fenceWrap "ts" "\x7b\"data\":\x7b\x7d,\"confidence\":5,\"confidenceByField\":\x7b\x7d\x7d")
      ≠ parseExtractionContent
          "\x7b\"data\":\x7b\x7d,\"confidence\":5,\"confidenceByField\":\x7b\x7d\x7d" := by
  intro h
  have h2 := congrArg isOkE h
  have hl : isOkE (parseExtractionContent
      (fenceWrap "ts" "\x7b\"data\":\x7b\x7d,\"confidence\":5,\"confidenceByField\":\x7b\x7d\x7d"))
      = false := rfl
  have hr : isOkE (parseExtractionContent
      "\x7b\"data\":\x7b\x7d,\"confidence\":5,\"confidenceByField\":\x7b\x7d\x7d") = true := rfl
  exact Bool.noConfusion (hl.symm.trans (h2.trans hr))

/-- A field definition validates exactly when none of the §4.1 rejection
causes applies. -/
theorem isOkE_validateFieldDef (isValidRegex : String → Bool) (n : String) (fd : Json) :
    isOkE (validateFieldDef isValidRegex n fd) = !(badFieldDef isValidRegex fd) := by
  simp only [validateFieldDef, badFieldDef]
  by_cases h1 : fieldLacksType fd = true <;>
    by_cases h2 : enumPresentEmpty fd = true <;>
      by_cases h3 : minGreaterThanMax fd = true <;>
        by_cases h4 : patternInvalid isValidRegex fd = true <;>
          simp [h1, h2, h3, h4, isOkE]

/-- In the `Except` monad an error propagates through `bind`. -/
theorem except_error_bind {ε α β : Type} (e : ε) (f : α → Except ε β) :
    (Except.error e >>= f) = Except.error e := rfl

/-- In the `Except` monad a success feeds `bind`. -/
theorem except_ok_bind {ε α β : Type} (a : α) (f : α → Except ε β) :
    (Except.ok a >>= f) = f a := rfl

/-- A field list validates exactly when every field definition does. -/
theorem isOkE_validateFieldsList (isValidRegex : String → Bool) :
    ∀ l : List (String × Json),
      isOkE (validateFieldsList isValidRegex l)
        = l.all (fun p => !(badFieldDef isValidRegex p.2)) := by
  intro l
  induction l with
  | nil => rfl
  | cons hd tl ih =>
    rcases hd with ⟨n, fd⟩
    rw [validateFieldsList]
    cases hv : validateFieldDef isValidRegex n fd with
    | error e =>
      have hbad := isOkE_validateFieldDef isValidRegex n fd
      rw [hv] at hbad
      rw [except_error_bind]
      simp only [List.all_cons, ← hbad]
      simp [isOkE]
    | ok u =>
      have hbad := isOkE_validateFieldDef isValidRegex n fd
      rw [hv] at hbad
      rw [except_ok_bind, ih]
      simp only [List.all_cons, ← hbad]
      simp [isOkE]

/-- The whole validation succeeds exactly when `fields` is a non-empty
object, every field definition passes, and the metadata is well formed. -/
theorem isOkE_validateSchema (isValidRegex : String → Bool) (raw : Json) :
    isOkE (validateSchema isValidRegex raw)
      = (!(fieldsMissingOrEmpty raw)
          && (fieldsListOf raw).all (fun p => !(badFieldDef isValidRegex p.2))
          && metadataOk raw) := by
  simp only [validateSchema, fieldsMissingOrEmpty, fieldsListOf]
  cases hf : jsGet raw "fields" with
  | none => simp [isOkE]
  | some v =>
    cases v with
    | obj ms =>
      cases ms with
      | nil => simp [isOkE]
      | cons f fs =>
        dsimp only
        cases hl : validateFieldsList isValidRegex (f :: fs) with
        | error e =>
          have h := isOkE_validateFieldsList isValidRegex (f :: fs)
          rw [hl] at h
          simp only [isOkE] at h
          rw [except_error_bind]
          simp [isOkE, ← h]
        | ok u =>
          have h := isOkE_validateFieldsList isValidRegex (f :: fs)
          rw [hl] at h
          simp only [isOkE] at h
          rw [except_ok_bind]
          cases hm : metadataOk raw <;> simp [isOkE, ← h, hm]
    | null => simp [isOkE]
    | bool b => simp [isOkE]
    | num q => simp [isOkE]
    | str s => simp [isOkE]
    | arr a => simp [isOkE]

/-- C9: schema validation (as invoked by `loadSchemaFromObject` and
`parseSchema`) fails exactly when `fields` is missing or empty, some field
definition lacks a `type`, has an empty `enum`, has `min > max`, or has an
invalid `pattern`, or the `metadata` is malformed; otherwise it returns the
validated schema object unchanged. It is total and side-effect-free by
construction. -/
theorem c9_schema_validation :
    ∀ (isValidRegex : String → Bool) (raw : Json),
      ((∃ e, loadSchemaFromObject isValidRegex raw = .error e) ↔
        (fieldsMissingOrEmpty raw = true ∨
         (∃ p ∈ fieldsListOf raw, badFieldDef isValidRegex p.2 = true) ∨
         metadataOk raw = false)) ∧
      (¬(fieldsMissingOrEmpty raw = true ∨
         (∃ p ∈ fieldsListOf raw, badFieldDef isValidRegex p.2 = true) ∨
         metadataOk raw = false) →
        loadSchemaFromObject isValidRegex raw = .ok raw) := by
  intro isValidRegex raw
  have hload : ∀ x, loadSchemaFromObject isValidRegex raw = x ↔
      (validateSchema isValidRegex raw >>= fun _ => .ok raw) = x := by
    intro x
    exact Iff.rfl
  have hkey := isOkE_validateSchema isValidRegex raw
  constructor
  · constructor
    · rintro ⟨e, he⟩
      cases hv : validateSchema isValidRegex raw with
      | ok u =>
        rw [loadSchemaFromObject, hv] at he
        cases he
      | error e2 =>
        rw [hv] at hkey
        simp only [isOkE] at hkey
        have := hkey.symm
        simp only [Bool.and_eq_false_iff, Bool.not_eq_false,
          List.all_eq_false] at this
        rcases this with (hme | ⟨p, hp, hbad⟩) | hmok
        · exact Or.inl (by simpa using hme)
        · exact Or.inr (Or.inl ⟨p, hp, by simpa using hbad⟩)
        · exact Or.inr (Or.inr (by simpa using hmok))
    · intro h
      cases hv : validateSchema isValidRegex raw with
      | error e2 =>
        refine ⟨e2, ?_⟩
        rw [loadSchemaFromObject, hv]
        rfl
      | ok u =>
        exfalso
        rw [hv] at hkey
        simp only [isOkE] at hkey
        have hall := hkey.symm
        simp only [Bool.and_eq_true, Bool.not_eq_true', List.all_eq_true] at hall
        rcases h with hme | ⟨p, hp, hbad⟩ | hmok
        · rw [hall.1.1] at hme
          cases hme
        · have := hall.1.2 p hp
          rw [hbad] at this
          cases this
        · rw [hall.2] at hmok
          cases hmok
  · intro h
    cases hv : validateSchema isValidRegex raw with
    | ok u =>
      rw [loadSchemaFromObject, hv]
      rfl
    | error e2 =>
      exfalso
      rw [hv] at hkey
      simp only [isOkE] at hkey
      have := hkey.symm
      simp only [Bool.and_eq_false_iff, Bool.not_eq_false,
        List.all_eq_false] at this
      rcases this with (hme | ⟨p, hp, hbad⟩) | hmok
      · exact h (Or.inl (by simpa using hme))
      · exact h (Or.inr (Or.inl ⟨p, hp, by simpa using hbad⟩))
      · exact h (Or.inr (Or.inr (by simpa using hmok)))

/-- Witness for C9: a valid one-field schema object validates and is returned
unchanged; an object whose field has `min > max` is rejected. -/
theorem c9_schema_validation_witness :
    loadSchemaFromObject (fun _ => true)
        (.obj [("fields", .obj [("name", .obj [("type", .str "string")])])])
      = .ok (.obj [("fields", .obj [("name", .obj [("type", .str "string")])])]) ∧
    (∃ e, loadSchemaFromObject (fun _ => true)
        (.obj [("fields", .obj [("age",
            .obj [("type", .str "number"), ("min", .num 100), ("max", .num 50)])])])
      = .error e) :=
  ⟨(c9_schema_validation (fun _ => true)
      (.obj [("fields", .obj [("name", .obj [("type", .str "string")])])])).2
    (by
      rintro (hme | ⟨p, hp, hbad⟩ | hmok)
      · exact absurd hme (by decide)
      · revert hbad
        have : p ∈ [("name", Json.obj [("type", Json.str "string")])] := hp
        simp only [List.mem_singleton] at this
        subst this
        decide
      · exact absurd hmok (by decide)),
   (c9_schema_validation (fun _ => true)
      (.obj [("fields", .obj [("age",
          .obj [("type", .str "number"), ("min", .num 100), ("max", .num 50)])])])).1.mpr
    (Or.inr (Or.inl ⟨("age",
        .obj [("type", .str "number"), ("min", .num 100), ("max", .num 50)]),
      List.Mem.head _, by decide⟩))⟩

end Ordis
